import Mathlib

/-!
Verification development for the price-oracle contract (`src/lib.rs`).

The contract (`lib.rs`) is embedded shallowly: NEAR environment reads
(`env::predecessor_account_id`, `env::block_timestamp`, attached deposit and
gas counters) become an explicit `Env` record, the persistent contract state
becomes the `Contract` record, and a Rust `assert!`/panic becomes an
`Except.error` result.  On NEAR a panic aborts the whole call and the host
discards every in-memory mutation, so `Except.error` carries no state:
the pre-call state is what persists.

The repository modules `asset.rs`, `ema.rs` and `utils.rs` are not part of
the provided sources; the definitions taken from them (`Price`, `Report`,
`Asset`, `EmaState`, validity, median, EMA update, the pagination helper's
map behaviour) are modelled from the specification and are marked
`Modelled from the spec:` in their doc comments.  Everything in `lib.rs`
itself is translated directly.
-/

/-- AssetId and AccountId are opaque strings in the contract. -/
abbrev AssetId := String

abbrev AccountId := String

/-- Rust `str::split_once('#')` on the list of characters: splits at the first
occurrence of `'#'`, returning the parts before and after it, or `none` when
no `'#'` occurs. -/
def splitOnceAux : List Char → Option (List Char × List Char)
  | [] => none
  | c :: cs =>
    if c = '#' then some ([], cs)
    else (splitOnceAux cs).map (fun p => (c :: p.1, p.2))

/-- Rust `asset_id.split_once('#')` as used in `get_price_data`. -/
def splitOnceHash (s : String) : Option (String × String) :=
  (splitOnceAux s.data).map (fun p => (⟨p.1⟩, ⟨p.2⟩))

/-- Lookup in an association list keyed by strings; the embedding of reads
from the contract's `UnorderedMap`. -/
def mapGet {α : Type} : List (String × α) → String → Option α
  | [], _ => none
  | (k, v) :: t, q => if k = q then some v else mapGet t q

/-- Insert-or-replace in an association list: an existing key's value is
replaced in place, a new key is appended, matching `UnorderedMap::insert`
(which keeps the first insertion's position and otherwise appends). -/
def mapSet {α : Type} : List (String × α) → String → α → List (String × α)
  | [], q, v => [(q, v)]
  | (k, w) :: t, q, v =>
    if k = q then (q, v) :: t else (k, w) :: mapSet t q v

/-- Modelled from the spec: a fixed-point decimal `Price` (`asset.rs` is not
in the provided sources) — an integer mantissa `multiplier` and a decimal
count `decimals`, denoting `multiplier / 10 ^ decimals`. -/
structure Price where
  multiplier : Nat
  decimals : Nat
  deriving DecidableEq, Repr

/-- Modelled from the spec: a price is valid only if its mantissa is nonzero
(non-positive prices are rejected) and its exponent is within a sane bound;
the bound is taken as 38 decimal digits (the width of the u128 mantissa). -/
def Price.isValid (p : Price) : Bool :=
  decide (p.multiplier ≠ 0) && decide (p.decimals ≤ 38)

/-- Numeric comparison of two fixed-point prices after normalising to a
common exponent (cross multiplication), never by raw mantissa alone. -/
def Price.le (a b : Price) : Bool :=
  decide (a.multiplier * 10 ^ b.decimals ≤ b.multiplier * 10 ^ a.decimals)

/-- Insert a price into an ascending list, keeping it sorted by `Price.le`. -/
def insertPrice (p : Price) : List Price → List Price
  | [] => [p]
  | q :: t => if Price.le p q then p :: q :: t else q :: insertPrice p t

/-- Insertion sort of prices, ascending by numeric value. -/
def sortPrices : List Price → List Price
  | [] => []
  | p :: t => insertPrice p (sortPrices t)

/-- Truncated arithmetic mean of two prices: normalise to the larger decimal
count, add, and halve with truncation toward zero. -/
def meanTrunc (a b : Price) : Price :=
  let d := max a.decimals b.decimals
  ⟨(a.multiplier * 10 ^ (d - a.decimals) + b.multiplier * 10 ^ (d - b.decimals)) / 2, d⟩

/-- Modelled from the spec: the median reducer.  Sort the prices ascending by
numeric value; an empty set yields `none`, an odd count yields the middle
element, an even count yields the truncated mean of the two central
elements. -/
def medianOfPrices (ps : List Price) : Option Price :=
  let s := sortPrices ps
  let n := s.length
  if n = 0 then none
  else if n % 2 = 1 then s[n / 2]?
  else match s[n / 2 - 1]?, s[n / 2]? with
    | some a, some b => some (meanTrunc a b)
    | _, _ => none

/-- One reporter's timestamped observation, as stored in the ledger. -/
structure Report where
  oracle_id : AccountId
  timestamp : Nat
  price : Price
  deriving DecidableEq, Repr

/-- Modelled from the spec: EMA state for one (asset, window) pair — the
window length in seconds, the current smoothed price, and the timestamp of
the last update (`ema.rs` is not in the provided sources). -/
structure EmaState where
  period_sec : Nat
  price : Price
  timestamp : Nat
  deriving DecidableEq, Repr

/-- Modelled from the spec: one EMA update step.  `dt = max(0, ts - last)`
(Nat subtraction), decay weight `alpha = dt / (dt + window)`, new value
`old * (1 - alpha) + new * alpha` computed exactly as
`(old * window + new * dt) / (window + dt)` with truncating division after
normalising both prices to a common exponent; the clock only advances. -/
def EmaState.update (st : EmaState) (r : Report) : EmaState :=
  let dt := r.timestamp - st.timestamp
  let d := max st.price.decimals r.price.decimals
  let om := st.price.multiplier * 10 ^ (d - st.price.decimals)
  let nm := r.price.multiplier * 10 ^ (d - r.price.decimals)
  { period_sec := st.period_sec
    price := ⟨(om * st.period_sec + nm * dt) / (st.period_sec + dt), d⟩
    timestamp := max st.timestamp r.timestamp }

/-- Modelled from the spec: an asset record — the latest report per reporter
and the EMA states created so far (`asset.rs` is not in the provided
sources). -/
structure Asset where
  reports : List Report
  emas : List EmaState
  deriving DecidableEq, Repr

/-- Modelled from the spec: `Asset::new()` — a fresh record with no reports
and no EMA state. -/
def Asset.new : Asset := ⟨[], []⟩

/-- Replace the report of the same reporter in place, or append a first
report from a new reporter; at most one live report per reporter. -/
def replaceReport (r : Report) : List Report → List Report
  | [] => [r]
  | q :: t => if q.oracle_id = r.oracle_id then r :: t else q :: replaceReport r t

/-- Modelled from the spec: `Asset::add_report` — store/replace the
reporter's entry, and incrementally update every existing EMA state with the
new report. -/
def Asset.add_report (a : Asset) (r : Report) : Asset :=
  { reports := replaceReport r a.reports
    emas := a.emas.map (fun st => EmaState.update st r) }

/-- Modelled from the spec: `Asset::median_price` — the median reducer over
the recency filter.  A report is recent iff `now - timestamp ≤ maxAge`
(Nat subtraction, so reports from the future are accepted). -/
def Asset.median_price (a : Asset) (now : Nat) (maxAge : Nat) : Option Price :=
  medianOfPrices ((a.reports.filter (fun r => decide (now - r.timestamp ≤ maxAge))).map Report.price)

/-- NEAR environment values read by the contract methods: the predecessor
account, the block timestamp, the attached deposit (yoctoNEAR) and the gas
counters. -/
structure Env where
  predecessor_account_id : AccountId
  block_timestamp : Nat
  attached_deposit : Nat
  prepaid_gas : Nat
  used_gas : Nat
  deriving DecidableEq, Repr

/-- The persistent contract state (`struct Contract` in `lib.rs`): the asset
ledger, the process-wide recency duration in seconds, and the owner. -/
structure Contract where
  assets : List (AssetId × Asset)
  recency_duration_sec : Nat
  owner_id : AccountId
  deriving DecidableEq, Repr

/-- The `new` initializer (`lib.rs`): empty ledger, stored recency duration
and owner. -/
def Contract.new (recency_duration_sec : Nat) (owner_id : AccountId) : Contract :=
  ⟨[], recency_duration_sec, owner_id⟩

/-- Modelled from the spec: `internal_get_asset` (`asset.rs` is not in the
provided sources) — a plain lookup of the asset record in the ledger. -/
def internal_get_asset (s : Contract) (asset_id : AssetId) : Option Asset :=
  mapGet s.assets asset_id

/-- Modelled from the spec: `internal_set_asset` — insert-or-replace the
asset record in the ledger. -/
def internal_set_asset (s : Contract) (asset_id : AssetId) (a : Asset) : Contract :=
  { s with assets := mapSet s.assets asset_id a }

/-- `get_asset` (`lib.rs`): the optional asset record; a read-only view. -/
def get_asset (s : Contract) (asset_id : AssetId) : Option Asset :=
  internal_get_asset s asset_id

/-- An entry of a price snapshot: the requested id and an optional price
(`AssetOptionalPrice` in the contract). -/
structure AssetOptionalPrice where
  asset_id : AssetId
  price : Option Price
  deriving DecidableEq, Repr

/-- One submitted report in a batch (`AssetPrice` in the contract). -/
structure AssetPrice where
  asset_id : AssetId
  price : Price
  deriving DecidableEq, Repr

/-- The snapshot returned by `get_price_data`: the block timestamp, the
recency duration used, and one optional-price entry per requested id. -/
structure PriceData where
  timestamp : Nat
  recency_duration_sec : Nat
  prices : List AssetOptionalPrice
  deriving DecidableEq, Repr

/-- The per-id resolution inside `get_price_data` (`lib.rs`): an id of the
form `base#window` is split at the first `'#'` and resolved through the
`base` asset's `median_price` (the window part is discarded by the code);
any other id is resolved through its own asset's `median_price`.  `now` and
`maxAge` are the block timestamp and the stored recency duration. -/
def priceEntry (s : Contract) (now : Nat) (asset_id : AssetId) : AssetOptionalPrice :=
  match splitOnceHash asset_id with
  | some (base_asset_id, _) =>
    ⟨asset_id, (internal_get_asset s base_asset_id).bind
      (fun a => a.median_price now s.recency_duration_sec)⟩
  | none =>
    ⟨asset_id, (internal_get_asset s asset_id).bind
      (fun a => a.median_price now s.recency_duration_sec)⟩

/-- `get_price_data` (`lib.rs`): defaults to every ledger key when no id list
is supplied, then maps each requested id to its optional price entry. -/
def get_price_data (e : Env) (s : Contract) (asset_ids : Option (List AssetId)) : PriceData :=
  let ids := asset_ids.getD (s.assets.map Prod.fst)
  { timestamp := e.block_timestamp
    recency_duration_sec := s.recency_duration_sec
    prices := ids.map (priceEntry s e.block_timestamp) }

/-- One iteration of the `report_prices` loop (`lib.rs`): validate the price
(a panic aborts the call), auto-create the asset when absent, then re-read
it; when the re-read succeeds the report is stored, otherwise the
"Unknown asset ID" warning is logged.  The second component of the state
accumulates the log lines emitted so far. -/
def reportStep (oracle_id : AccountId) (timestamp : Nat)
    (acc : Contract × List String) (ap : AssetPrice) :
    Except String (Contract × List String) :=
  if ap.price.isValid then
    let s := if (internal_get_asset acc.1 ap.asset_id).isNone
      then internal_set_asset acc.1 ap.asset_id Asset.new
      else acc.1
    match internal_get_asset s ap.asset_id with
    | some a =>
      .ok (internal_set_asset s ap.asset_id
        (a.add_report ⟨oracle_id, timestamp, ap.price⟩), acc.2)
    | none => .ok (s, acc.2 ++ ["Warning! Unknown asset ID: " ++ ap.asset_id])
  else .error "ERR: price is not valid"

/-- The `report_prices` loop over the whole batch, in order. -/
def reportLoop (oracle_id : AccountId) (timestamp : Nat) :
    Contract × List String → List AssetPrice → Except String (Contract × List String)
  | acc, [] => .ok acc
  | acc, ap :: rest =>
    (reportStep oracle_id timestamp acc ap).bind
      (fun acc2 => reportLoop oracle_id timestamp acc2 rest)

/-- `report_prices` (`lib.rs`): asserts the batch is non-empty, reads the
reporter identity and timestamp from the environment, and runs the loop.
An `Except.error` models the Rust panic: the host reverts the call, so no
state from the batch survives. -/
def report_prices (e : Env) (s : Contract) (prices : List AssetPrice) :
    Except String (Contract × List String) :=
  if prices.isEmpty then .error "ERR: assert failed: prices is empty"
  else reportLoop e.predecessor_account_id e.block_timestamp (s, []) prices

/-- `GAS_FOR_PROMISE` (`lib.rs`): 10 TGas, reserved for the forwarded call. -/
def GAS_FOR_PROMISE : Nat := 10 * 10 ^ 12

/-- The outbound invocation built by `oracle_call`: the receiver, the sender
forwarded as argument, the freshly built snapshot, the opaque message, and
the gas attached to the promise. -/
structure PromiseCall where
  receiver_id : AccountId
  sender_id : AccountId
  data : PriceData
  msg : String
  attached_gas : Nat
  deriving DecidableEq, Repr

/-- `oracle_call` (`lib.rs`): requires exactly 1 yoctoNEAR attached
(`assert_one_yocto` via `assert_well_paid`) before anything else; then
builds the snapshot, computes the remaining gas, asserts it covers
`GAS_FOR_PROMISE`, and only then constructs the outbound invocation.
`Except.error` models the panic: nothing is sent to the consumer. -/
def oracle_call (e : Env) (s : Contract) (receiver_id : AccountId)
    (asset_ids : Option (List AssetId)) (msg : String) : Except String PromiseCall :=
  if e.attached_deposit ≠ 1 then
    .error "Requires attached deposit of exactly 1 yoctoNEAR"
  else
    let sender_id := e.predecessor_account_id
    let price_data := get_price_data e s asset_ids
    let remaining_gas := e.prepaid_gas - e.used_gas
    if remaining_gas < GAS_FOR_PROMISE then .error "ERR: assert failed: not enough gas"
    else .ok ⟨receiver_id, sender_id, price_data, msg, remaining_gas - GAS_FOR_PROMISE⟩

/-- The collection loop of `oracle_on_call` (`lib.rs`): push an `AssetPrice`
for every entry whose optional price is present, in order. -/
def collectPrices : List AssetOptionalPrice → List AssetPrice
  | [] => []
  | p :: t =>
    match p.price with
    | some pr => ⟨p.asset_id, pr⟩ :: collectPrices t
    | none => collectPrices t

/-- `oracle_on_call` (`lib.rs`): collect the present prices from the pushed
data; when at least one is present, log the trigger line and forward the
collected batch to `report_prices`; otherwise do nothing.  The result pairs
the new state with the log lines of the call. -/
def oracle_on_call (e : Env) (s : Contract) (sender_id : AccountId)
    (data : PriceData) (msg : String) : Except String (Contract × List String) :=
  let prices := collectPrices data.prices
  if prices.length > 0 then
    (report_prices e s prices).map
      (fun r => (r.1, ("Account " ++ sender_id ++ " triggers a " ++ msg) :: r.2))
  else .ok (s, [])

deriving instance DecidableEq for Except

/-- The state the host commits after a call: the new state on success, the
pre-call state on a panic (NEAR reverts every mutation of a failed call). -/
def commitState (s : Contract) (r : Except String (Contract × List String)) : Contract :=
  match r with
  | .ok p => p.1
  | .error _ => s

/-- A ledger read threaded through the state, as the source's `&self` borrow
is: it returns the (unchanged) state together with the optional record. -/
def internal_get_asset_st (s : Contract) (asset_id : AssetId) : Contract × Option Asset :=
  (s, internal_get_asset s asset_id)

/-- One step of the state-threaded `get_price_data` body: resolve the next
requested id through the threaded state and append its entry. -/
def priceEntryStep (now : Nat) (acc : Contract × List AssetOptionalPrice)
    (asset_id : AssetId) : Contract × List AssetOptionalPrice :=
  match splitOnceHash asset_id with
  | some (base_asset_id, _) =>
    let r := internal_get_asset_st acc.1 base_asset_id
    (r.1, acc.2 ++ [⟨asset_id, r.2.bind (fun a => a.median_price now r.1.recency_duration_sec)⟩])
  | none =>
    let r := internal_get_asset_st acc.1 asset_id
    (r.1, acc.2 ++ [⟨asset_id, r.2.bind (fun a => a.median_price now r.1.recency_duration_sec)⟩])

/-- `get_price_data` in state-passing style: every ledger access threads the
contract state, so a state change anywhere in the body would surface in the
first component of the result. -/
def get_price_data_st (e : Env) (s : Contract) (asset_ids : Option (List AssetId)) :
    Contract × PriceData :=
  let ids := asset_ids.getD (s.assets.map Prod.fst)
  let r := ids.foldl (priceEntryStep e.block_timestamp) (s, [])
  (r.1, ⟨e.block_timestamp, r.1.recency_duration_sec, r.2⟩)

/-- The ledger after reporter `r1` reports price 10 for asset `a` at time
100 on a fresh contract (recency 3600 seconds). -/
def c1StateOne : Contract :=
  ⟨[("a", ⟨[⟨"r1", 100, ⟨10, 0⟩⟩], []⟩)], 3600, "owner"⟩

/-- The ledger after reporter `r2` additionally reports price 30 for asset
`a` at time 200. -/
def c1StateTwo : Contract :=
  ⟨[("a", ⟨[⟨"r1", 100, ⟨10, 0⟩⟩, ⟨"r2", 200, ⟨30, 0⟩⟩], []⟩)], 3600, "owner"⟩

/-- The ledger resulting from the C5 witness batch. -/
def c5State : Contract := ⟨[("b", ⟨[⟨"r1", 5, ⟨7, 2⟩⟩], []⟩)], 60, "own"⟩

/-- The ledger after a report is submitted under the literal id `a#1`:
nothing validates asset ids, so an id containing `'#'` becomes an ordinary
stored asset. -/
def c6State : Contract := ⟨[("a#1", ⟨[⟨"r1", 100, ⟨10, 0⟩⟩], []⟩)], 3600, "owner"⟩

example : splitOnceHash "wrap.near#3600" = some ("wrap.near", "3600") := by decide
example : splitOnceHash "wrap.near" = none := by decide
example : medianOfPrices [⟨1, 0⟩, ⟨2, 0⟩, ⟨3, 0⟩] = some ⟨2, 0⟩ := by decide
example : medianOfPrices [⟨3, 0⟩, ⟨1, 0⟩, ⟨4, 0⟩, ⟨2, 0⟩] = some ⟨2, 0⟩ := by decide
example : medianOfPrices [] = none := by decide

theorem mapGet_mapSet_self {α : Type} (m : List (String × α)) (k : String) (v : α) :
    mapGet (mapSet m k v) k = some v := by
  induction m with
  | nil => simp [mapGet, mapSet]
  | cons h t ih =>
    by_cases hk : h.1 = k
    · simp [mapSet, hk, mapGet]
    · simp [mapSet, hk, mapGet, ih]

theorem reportStep_invalid (oracle_id : AccountId) (timestamp : Nat)
    (acc : Contract × List String) (ap : AssetPrice)
    (h : ap.price.isValid = false) :
    reportStep oracle_id timestamp acc ap = .error "ERR: price is not valid" := by
  simp [reportStep, h]

theorem reportStep_valid_ok (oracle_id : AccountId) (timestamp : Nat)
    (acc : Contract × List String) (ap : AssetPrice)
    (h : ap.price.isValid = true) :
    ∃ s2, reportStep oracle_id timestamp acc ap = .ok (s2, acc.2) := by
  cases hget : internal_get_asset acc.1 ap.asset_id with
  | some a =>
    refine ⟨internal_set_asset acc.1 ap.asset_id
      (a.add_report ⟨oracle_id, timestamp, ap.price⟩), ?_⟩
    simp [reportStep, h, hget]
  | none =>
    have hcreated : internal_get_asset (internal_set_asset acc.1 ap.asset_id Asset.new)
        ap.asset_id = some Asset.new := by
      simp [internal_get_asset, internal_set_asset, mapGet_mapSet_self]
    refine ⟨internal_set_asset (internal_set_asset acc.1 ap.asset_id Asset.new) ap.asset_id
      (Asset.new.add_report ⟨oracle_id, timestamp, ap.price⟩), ?_⟩
    simp [reportStep, h, hget, hcreated]

theorem reportStep_ok_logs (oracle_id : AccountId) (timestamp : Nat)
    (acc : Contract × List String) (ap : AssetPrice) (s2 : Contract) (logs2 : List String)
    (h : reportStep oracle_id timestamp acc ap = .ok (s2, logs2)) : logs2 = acc.2 := by
  cases hv : ap.price.isValid with
  | false => rw [reportStep_invalid oracle_id timestamp acc ap hv] at h; simp at h
  | true =>
    obtain ⟨s3, hs3⟩ := reportStep_valid_ok oracle_id timestamp acc ap hv
    rw [hs3] at h
    simp only [Except.ok.injEq, Prod.mk.injEq] at h
    exact h.2.symm

theorem reportLoop_ok_logs (oracle_id : AccountId) (timestamp : Nat)
    (l : List AssetPrice) (s1 : Contract) (logs1 : List String)
    (s2 : Contract) (logs2 : List String)
    (h : reportLoop oracle_id timestamp (s1, logs1) l = .ok (s2, logs2)) : logs2 = logs1 := by
  induction l generalizing s1 logs1 with
  | nil =>
    simp only [reportLoop, Except.ok.injEq, Prod.mk.injEq] at h
    exact h.2.symm
  | cons ap rest ih =>
    simp only [reportLoop] at h
    cases hstep : reportStep oracle_id timestamp (s1, logs1) ap with
    | error msg => rw [hstep] at h; simp [Except.bind] at h
    | ok acc2 =>
      rw [hstep] at h
      simp only [Except.bind] at h
      obtain ⟨a2s, a2l⟩ := acc2
      have h3 := reportStep_ok_logs oracle_id timestamp (s1, logs1) ap a2s a2l hstep
      exact (ih a2s a2l h).trans h3

theorem reportLoop_error_of_invalid (oracle_id : AccountId) (timestamp : Nat)
    (l : List AssetPrice) (acc : Contract × List String)
    (h : ∃ ap ∈ l, ap.price.isValid = false) :
    ∃ msg, reportLoop oracle_id timestamp acc l = .error msg := by
  induction l generalizing acc with
  | nil => obtain ⟨ap, hmem, _⟩ := h; exact absurd hmem (by simp)
  | cons hd rest ih =>
    cases hv : hd.price.isValid with
    | false =>
      refine ⟨"ERR: price is not valid", ?_⟩
      simp only [reportLoop, reportStep_invalid oracle_id timestamp acc hd hv, Except.bind]
    | true =>
      obtain ⟨ap, hmem, hbad⟩ := h
      have hrest : ap ∈ rest := by
        rcases List.mem_cons.mp hmem with heq | htl
        · rw [heq] at hbad; rw [hbad] at hv; exact absurd hv (by simp)
        · exact htl
      obtain ⟨s3, hs3⟩ := reportStep_valid_ok oracle_id timestamp acc hd hv
      obtain ⟨msg, hmsg⟩ := ih (s3, acc.2) ⟨ap, hrest, hbad⟩
      refine ⟨msg, ?_⟩
      simp only [reportLoop, hs3, Except.bind, hmsg]

theorem priceEntry_asset_id (s : Contract) (now : Nat) (id : AssetId) :
    (priceEntry s now id).asset_id = id := by
  unfold priceEntry
  cases h : splitOnceHash id with
  | none => rfl
  | some p => cases p; rfl

theorem map_priceEntry_asset_id (s : Contract) (now : Nat) (l : List AssetId) :
    (l.map (priceEntry s now)).map AssetOptionalPrice.asset_id = l := by
  induction l with
  | nil => rfl
  | cons hd tl ih => simp [priceEntry_asset_id, ih]

theorem collectPrices_eq_filterMap (l : List AssetOptionalPrice) :
    collectPrices l
      = l.filterMap (fun p => p.price.map (fun pr => AssetPrice.mk p.asset_id pr)) := by
  induction l with
  | nil => rfl
  | cons hd tl ih =>
    cases hp : hd.price with
    | none => simp [collectPrices, hp, List.filterMap_cons, ih]
    | some pr => simp [collectPrices, hp, List.filterMap_cons, ih]

theorem priceEntryStep_eq (now : Nat) (acc : Contract × List AssetOptionalPrice)
    (asset_id : AssetId) :
    priceEntryStep now acc asset_id = (acc.1, acc.2 ++ [priceEntry acc.1 now asset_id]) := by
  unfold priceEntryStep priceEntry internal_get_asset_st
  cases h : splitOnceHash asset_id with
  | none => rfl
  | some p => cases p; rfl

theorem foldl_priceEntryStep (now : Nat) (l : List AssetId) (s : Contract)
    (es : List AssetOptionalPrice) :
    l.foldl (priceEntryStep now) (s, es) = (s, es ++ l.map (priceEntry s now)) := by
  induction l generalizing es with
  | nil => simp
  | cons hd tl ih =>
    rw [List.foldl_cons, priceEntryStep_eq, ih]
    simp


/-- C1: the claim fails on the code.  After two fresh reports (10 and 30)
for asset `a`, requesting `a#3600` returns `20`, the median of `a`'s
reports — `get_price_data` calls `median_price` on the base asset in the
`base#window` branch as well — while the asset holds no EMA state at all
for the window 3600, so the returned value is not and cannot be the EMA
Tracker's smoothed value for `(a, 3600)`. -/
theorem hash_id_price_is_base_median_not_ema :
    report_prices ⟨"r1", 100, 0, 0, 0⟩ (Contract.new 3600 "owner") [⟨"a", ⟨10, 0⟩⟩]
      = .ok (c1StateOne, []) ∧
    report_prices ⟨"r2", 200, 0, 0, 0⟩ c1StateOne [⟨"a", ⟨30, 0⟩⟩]
      = .ok (c1StateTwo, []) ∧
    (get_price_data ⟨"caller", 200, 0, 0, 0⟩ c1StateTwo (some ["a#3600"])).prices
      = [⟨"a#3600", some ⟨20, 0⟩⟩] ∧
    (internal_get_asset c1StateTwo "a").map Asset.emas = some [] ∧
    (internal_get_asset c1StateTwo "a").map (fun a => a.median_price 200 3600)
      = some (some ⟨20, 0⟩) := by
  decide

/-- C2: a batch containing any invalid price is rejected (`assert_valid`
panics, surfacing as an `Except.error`), and the committed ledger is exactly
the pre-call state — no report of the batch, not even one ordered before the
invalid entry, survives. -/
theorem report_prices_all_or_nothing (e : Env) (s : Contract) (prices : List AssetPrice)
    (h : ∃ ap ∈ prices, ap.price.isValid = false) :
    (∃ msg, report_prices e s prices = .error msg) ∧
    commitState s (report_prices e s prices) = s := by
  have hne : ¬prices.isEmpty := by
    obtain ⟨ap, hmem, _⟩ := h
    cases prices with
    | nil => exact absurd hmem (by simp)
    | cons a t => simp [List.isEmpty]
  obtain ⟨msg, hmsg⟩ := reportLoop_error_of_invalid e.predecessor_account_id
    e.block_timestamp prices (s, []) h
  have hrp : report_prices e s prices = .error msg := by
    simp only [report_prices, hne, if_false, Bool.false_eq_true, reduceIte]
    exact hmsg
  exact ⟨⟨msg, hrp⟩, by rw [hrp]; rfl⟩

/-- C2 witness: a concrete batch whose first entry is valid and whose second
has a zero mantissa is rejected and commits no ledger change. -/
theorem report_prices_all_or_nothing_witness :
    (∃ msg, report_prices ⟨"r1", 5, 0, 0, 0⟩ (Contract.new 60 "own")
      [⟨"good", ⟨7, 2⟩⟩, ⟨"bad", ⟨0, 0⟩⟩] = .error msg) ∧
    commitState (Contract.new 60 "own") (report_prices ⟨"r1", 5, 0, 0, 0⟩
      (Contract.new 60 "own") [⟨"good", ⟨7, 2⟩⟩, ⟨"bad", ⟨0, 0⟩⟩]) = Contract.new 60 "own" :=
  report_prices_all_or_nothing ⟨"r1", 5, 0, 0, 0⟩ (Contract.new 60 "own")
    [⟨"good", ⟨7, 2⟩⟩, ⟨"bad", ⟨0, 0⟩⟩] ⟨⟨"bad", ⟨0, 0⟩⟩, by decide, by decide⟩

/-- C3: `get_price_data` returns exactly one optional-price entry per
requested id, carrying the requested id itself, in the order of the request;
assets without data appear with `price = none`, never omitted (the entry
list is a map over the request). -/
theorem get_price_data_one_entry_per_id_in_order (e : Env) (s : Contract)
    (ids : List AssetId) :
    (get_price_data e s (some ids)).prices.map AssetOptionalPrice.asset_id = ids := by
  simp only [get_price_data, Option.getD_some]
  exact map_priceEntry_asset_id s e.block_timestamp ids

/-- C4: `oracle_call` with an attached deposit other than exactly one
yoctoNEAR fails with the deposit error — the very first check, for every
state and every gas situation, so no snapshot result is ever involved — and
with the correct deposit but remaining gas below `GAS_FOR_PROMISE` it fails
with the gas error; an `Except.error` result carries no `PromiseCall`, so
nothing is sent to the consumer in either case. -/
theorem oracle_call_aborts_on_missing_payment_or_gas (e : Env) (s : Contract)
    (receiver_id : AccountId) (asset_ids : Option (List AssetId)) (msg : String) :
    (e.attached_deposit ≠ 1 →
      oracle_call e s receiver_id asset_ids msg
        = .error "Requires attached deposit of exactly 1 yoctoNEAR") ∧
    (e.attached_deposit = 1 → e.prepaid_gas - e.used_gas < GAS_FOR_PROMISE →
      oracle_call e s receiver_id asset_ids msg
        = .error "ERR: assert failed: not enough gas") := by
  constructor
  · intro hdep
    simp [oracle_call, hdep]
  · intro hdep hgas
    simp [oracle_call, hdep, hgas]

/-- C4 witness: with deposit 0 the call fails with the deposit error; with
deposit 1 but zero gas it fails with the gas error. -/
theorem oracle_call_aborts_witness :
    oracle_call ⟨"r", 0, 0, 0, 0⟩ (Contract.new 60 "own") "recv" none "m"
      = .error "Requires attached deposit of exactly 1 yoctoNEAR" ∧
    oracle_call ⟨"r", 0, 1, 0, 0⟩ (Contract.new 60 "own") "recv" none "m"
      = .error "ERR: assert failed: not enough gas" :=
  ⟨(oracle_call_aborts_on_missing_payment_or_gas ⟨"r", 0, 0, 0, 0⟩
      (Contract.new 60 "own") "recv" none "m").1 (by decide),
   (oracle_call_aborts_on_missing_payment_or_gas ⟨"r", 0, 1, 0, 0⟩
      (Contract.new 60 "own") "recv" none "m").2 rfl (by decide)⟩

/-- C5: the "Unknown asset ID" warning branch of `report_prices` is
unreachable: every accepted batch produces an empty log — the asset record
is auto-created immediately before the re-read, so `internal_get_asset`
always succeeds at that point. -/
theorem report_prices_unknown_warning_unreachable (e : Env) (s : Contract)
    (prices : List AssetPrice) (s2 : Contract) (logs : List String)
    (h : report_prices e s prices = .ok (s2, logs)) : logs = [] := by
  unfold report_prices at h
  by_cases hne : prices.isEmpty
  · rw [if_pos hne] at h; simp at h
  · rw [if_neg hne] at h
    exact reportLoop_ok_logs e.predecessor_account_id e.block_timestamp prices s [] s2 logs h

/-- C5 witness: a concrete accepted batch for a previously unknown asset
runs to success with an empty log. -/
theorem report_prices_unknown_warning_unreachable_witness :
    report_prices ⟨"r1", 5, 0, 0, 0⟩ (Contract.new 60 "own") [⟨"b", ⟨7, 2⟩⟩]
      = .ok (c5State, []) ∧ ([] : List String) = [] :=
  ⟨by decide,
   report_prices_unknown_warning_unreachable ⟨"r1", 5, 0, 0, 0⟩ (Contract.new 60 "own")
     [⟨"b", ⟨7, 2⟩⟩] c5State [] (by decide)⟩

/-- C6 counterexample: the second half of the claim fails on the code.
Reporting under the literal id `a#1` (accepted — ids are never validated)
stores `a#1` in the Report Ledger, and a snapshot query with no explicit id
list then contains the `base#window`-form id `a#1` in its default set. -/
theorem default_snapshot_can_contain_hash_id :
    report_prices ⟨"r1", 100, 0, 0, 0⟩ (Contract.new 3600 "owner") [⟨"a#1", ⟨10, 0⟩⟩]
      = .ok (c6State, []) ∧
    (get_price_data ⟨"caller", 100, 0, 0, 0⟩ c6State none).prices.map
      AssetOptionalPrice.asset_id = ["a#1"] ∧
    splitOnceHash "a#1" = some ("a", "1") := by
  decide

/-- C6 amended: when no explicit id list is supplied the snapshot covers
exactly the ids currently stored in the Report Ledger, in ledger order;
since reports may be submitted under ids containing `'#'`, such an id can
appear in the default set whenever it was itself stored as an asset. -/
theorem default_snapshot_ids_are_ledger_keys (e : Env) (s : Contract) :
    (get_price_data e s none).prices.map AssetOptionalPrice.asset_id
      = s.assets.map Prod.fst := by
  simp only [get_price_data, Option.getD_none]
  exact map_priceEntry_asset_id s e.block_timestamp (s.assets.map Prod.fst)

/-- C7: an asset id with no recorded data — the id itself has no ledger
record, and for the `base#window` form the base has none either (reports are
what create records, so an id never reported has no record) — yields an
explicit `none` from `get_asset` and an entry with `price = none` from
`get_price_data`; neither query fails or substitutes a default price. -/
theorem never_reported_asset_yields_none (e : Env) (s : Contract) (id : AssetId)
    (h1 : internal_get_asset s id = none)
    (h2 : ∀ b w, splitOnceHash id = some (b, w) → internal_get_asset s b = none) :
    get_asset s id = none ∧
    (get_price_data e s (some [id])).prices = [⟨id, none⟩] := by
  refine ⟨h1, ?_⟩
  simp only [get_price_data, Option.getD_some, List.map_cons, List.map_nil]
  cases hs : splitOnceHash id with
  | none => simp [priceEntry, hs, h1]
  | some p => simp [priceEntry, hs, h2 p.1 p.2 (by rw [hs])]

/-- C7 witness: on a fresh contract both a plain never-reported id and a
`base#window`-form id resolve to explicit absence. -/
theorem never_reported_asset_yields_none_witness :
    (get_asset (Contract.new 60 "own") "btc" = none ∧
      (get_price_data ⟨"q", 9, 0, 0, 0⟩ (Contract.new 60 "own") (some ["btc"])).prices
        = [⟨"btc", none⟩]) ∧
    (get_asset (Contract.new 60 "own") "btc#60" = none ∧
      (get_price_data ⟨"q", 9, 0, 0, 0⟩ (Contract.new 60 "own") (some ["btc#60"])).prices
        = [⟨"btc#60", none⟩]) :=
  ⟨never_reported_asset_yields_none ⟨"q", 9, 0, 0, 0⟩ (Contract.new 60 "own") "btc" rfl
      (fun b w h => Option.noConfusion ((by decide : splitOnceHash "btc" = none).symm.trans h)),
   never_reported_asset_yields_none ⟨"q", 9, 0, 0, 0⟩ (Contract.new 60 "own") "btc#60" rfl
      (fun _ _ _ => rfl)⟩

/-- C8: `get_price_data` is a pure query.  In the state-passing rendering of
its body, where every ledger access threads the contract state, the final
state is exactly the initial one — asset ledger, recency duration and owner
untouched — and the produced snapshot agrees with the direct definition. -/
theorem get_price_data_leaves_state_unchanged (e : Env) (s : Contract)
    (asset_ids : Option (List AssetId)) :
    (get_price_data_st e s asset_ids).1 = s ∧
    (get_price_data_st e s asset_ids).2 = get_price_data e s asset_ids := by
  cases asset_ids with
  | none =>
    simp [get_price_data_st, get_price_data, foldl_priceEntryStep]
  | some ids =>
    simp [get_price_data_st, get_price_data, foldl_priceEntryStep]

/-- C9: an empty batch is rejected by the `assert!(!prices.is_empty())` at
the top of `report_prices` and the committed state is the pre-call state. -/
theorem report_prices_rejects_empty_batch (e : Env) (s : Contract) :
    report_prices e s [] = .error "ERR: assert failed: prices is empty" ∧
    commitState s (report_prices e s []) = s :=
  ⟨rfl, rfl⟩

/-- C10: `oracle_on_call` forwards to `report_prices` exactly the entries of
the pushed data whose optional price is present, with asset id and price
preserved in order; when no entry has a present price it neither changes the
state nor logs the trigger line nor invokes `report_prices` (which would
reject its empty batch), and when some entry is present the whole call is
exactly the forwarding of the collected batch. -/
theorem oracle_on_call_forwards_only_present_prices (e : Env) (s : Contract)
    (sender_id : AccountId) (data : PriceData) (msg : String) :
    collectPrices data.prices
      = data.prices.filterMap (fun p => p.price.map (fun pr => AssetPrice.mk p.asset_id pr)) ∧
    (collectPrices data.prices = [] →
      oracle_on_call e s sender_id data msg = .ok (s, [])) ∧
    (collectPrices data.prices ≠ [] →
      oracle_on_call e s sender_id data msg
        = (report_prices e s (collectPrices data.prices)).map
            (fun r => (r.1, ("Account " ++ sender_id ++ " triggers a " ++ msg) :: r.2))) := by
  refine ⟨collectPrices_eq_filterMap data.prices, ?_, ?_⟩
  · intro hempty
    simp [oracle_on_call, hempty]
  · intro hne
    have hlen : (collectPrices data.prices).length > 0 := List.length_pos.mpr hne
    simp [oracle_on_call, hlen]

/-- C10 witness: a push whose entries are all absent leaves the state
untouched with no log, and a push with one present entry forwards exactly
that entry. -/
theorem oracle_on_call_forwards_only_present_prices_witness :
    oracle_on_call ⟨"orc", 7, 0, 0, 0⟩ (Contract.new 60 "own") "snd"
      ⟨0, 60, [⟨"a", none⟩, ⟨"b", none⟩]⟩ "m" = .ok (Contract.new 60 "own", []) ∧
    oracle_on_call ⟨"orc", 7, 0, 0, 0⟩ (Contract.new 60 "own") "snd"
      ⟨0, 60, [⟨"a", some ⟨5, 0⟩⟩, ⟨"b", none⟩]⟩ "m"
      = (report_prices ⟨"orc", 7, 0, 0, 0⟩ (Contract.new 60 "own")
          (collectPrices [⟨"a", some ⟨5, 0⟩⟩, ⟨"b", none⟩])).map
          (fun r => (r.1, ("Account " ++ "snd" ++ " triggers a " ++ "m") :: r.2)) :=
  ⟨((oracle_on_call_forwards_only_present_prices ⟨"orc", 7, 0, 0, 0⟩ (Contract.new 60 "own")
      "snd" ⟨0, 60, [⟨"a", none⟩, ⟨"b", none⟩]⟩ "m").2.1 (by decide)),
   ((oracle_on_call_forwards_only_present_prices ⟨"orc", 7, 0, 0, 0⟩ (Contract.new 60 "own")
      "snd" ⟨0, 60, [⟨"a", some ⟨5, 0⟩⟩, ⟨"b", none⟩]⟩ "m").2.2 (by decide))⟩
